import Mathlib

/-!
Verification development for the habit-bot check-in core (`src/bot.py`).

The embedding follows the source closely:
* Python strings that are inspected character by character are modelled as
  `List Char`; opaque strings (days, time slots, habit titles) stay `String`.
* The sqlite `checkins` table is a `DB` value (list of rows plus the next
  `AUTOINCREMENT` rowid).  Note that `init_db` creates the index
  `idx_checkins_uniq` with `CREATE INDEX`, not `CREATE UNIQUE INDEX`, so an
  `INSERT` into `checkins` never fails on a duplicate key; `ensure_checkin`'s
  `try/except` consequently never fires in the absence of storage errors and
  the insert is unconditional here.
* The module-level dicts `SESSIONS` and `WAIT_REASON` and the outgoing
  messages become a `BotState` plus an event trace (`Ev`).
-/

set_option autoImplicit false

namespace HabitBot

/-! ## Text helpers (Python `str` operations on `List Char`) -/

/-- Python `str.strip()` from the left: drop leading whitespace. -/
def dropLeadWs (s : List Char) : List Char :=
  s.dropWhile Char.isWhitespace

/-- Python `str.strip()`: drop leading and trailing whitespace. -/
def stripWs (s : List Char) : List Char :=
  ((s.dropWhile Char.isWhitespace).reverse.dropWhile Char.isWhitespace).reverse

/-- Python `str.strip(chars)`: drop leading and trailing characters from `set`. -/
def stripChars (set : List Char) (s : List Char) : List Char :=
  ((s.dropWhile (set.contains ·)).reverse.dropWhile (set.contains ·)).reverse

/-- Python `str.lower()` restricted to the alphabets the bot uses:
ASCII `A`-`Z` and Cyrillic `А`-`Я` map down by 32 code points, `Ё` maps to `ё`. -/
def lowerChar (c : Char) : Char :=
  if 'A' ≤ c ∧ c ≤ 'Z' then Char.ofNat (c.toNat + 32)
  else if 'А' ≤ c ∧ c ≤ 'Я' then Char.ofNat (c.toNat + 32)
  else if c = 'Ё' then 'ё'
  else c

/-- `norm` from the source: `(s or "").strip().lower()`. -/
def normL (s : List Char) : List Char :=
  (stripWs s).map lowerChar

/-- Python `t.startswith(p)`. -/
def begWith : List Char → List Char → Bool
  | [], _ => true
  | _ :: _, [] => false
  | a :: ps, b :: ts => a == b && begWith ps ts

/-- Python `p in t` (substring test). -/
def containsSub (needle : List Char) : List Char → Bool
  | [] => needle.isEmpty
  | c :: rest => begWith needle (c :: rest) || containsSub needle rest

/-- Python `t.split(sep, 1)[1]`: everything after the first occurrence of
`sep` (the whole suffix semantics the source relies on after an `in` check;
`[]` when `sep` does not occur). -/
def afterFirst (sep : List Char) : List Char → List Char
  | [] => []
  | c :: rest =>
    if begWith sep (c :: rest) then (c :: rest).drop sep.length
    else afterFirst sep rest

/-- Python `t.replace(pat, "", 1)`: remove the first occurrence of `pat`. -/
def removeFirst (pat : List Char) : List Char → List Char
  | [] => []
  | c :: rest =>
    if begWith pat (c :: rest) then (c :: rest).drop pat.length
    else c :: removeFirst pat rest

/-- Python `t in words` for a vocabulary of strings. -/
def inVocab (t : List Char) (ws : List (List Char)) : Bool :=
  ws.any (fun w => w == t)

/-! ## Response classifier (`YES_WORDS`, `NO_WORDS`, `parse_yes_no`) -/

def YES_WORDS : List (List Char) :=
  ["да".toList, "ага".toList, "угу".toList, "ok".toList, "ок".toList,
   "сделал".toList, "выполнил".toList, "готово".toList, "✅".toList, "yes".toList]

def NO_WORDS : List (List Char) :=
  ["нет".toList, "не".toList, "неа".toList, "пропустил".toList,
   "не сделал".toList, "не выполнил".toList, "no".toList]

inductive Answer where
  | yes
  | no
deriving DecidableEq, Repr

/-- The inline reason extraction `parse_yes_no` performs in its negative
branches: `потому`-split with first `что` removed and `" :,-"` stripped,
else first-comma split with whitespace stripped, else no reason; an empty
remainder counts as no reason. -/
def extractReason (t : List Char) : Option (List Char) :=
  if containsSub "потому".toList t then
    let after := stripChars " :,-".toList (removeFirst "что".toList (afterFirst "потому".toList t))
    if after.isEmpty then none else some after
  else if containsSub [','] t then
    let after := stripWs (afterFirst [','] t)
    if after.isEmpty then none else some after
  else none

/-- The body of `parse_yes_no` applied to the already-normalized text. -/
def classify (t : List Char) : Option (Answer × Option (List Char)) :=
  if t.isEmpty then none
  else if begWith "нет".toList t then some (.no, extractReason t)
  else if inVocab t YES_WORDS || begWith "да ".toList t then some (.yes, none)
  else if begWith "не сделал".toList t then some (.no, extractReason t)
  else if begWith "не выполнил".toList t then some (.no, extractReason t)
  else if begWith "пропустил".toList t then some (.no, extractReason t)
  else if inVocab t NO_WORDS then some (.no, none)
  else none

/-- `parse_yes_no` from the source: normalize, then classify. -/
def parseYesNo (text : List Char) : Option (Answer × Option (List Char)) :=
  classify (normL text)

/-! ## Spec-side definitions used to compare against the code -/

/-- The reason-extraction rule exactly as the spec words it: if the text
contains the causal connective, the reason is everything after the
connective with the connective's filler word stripped and surrounding
punctuation trimmed; else if the text contains a comma, the reason is
everything after the first comma, trimmed; else no reason (an empty
extraction counts as no reason). -/
def reasonSpec (t : List Char) : Option (List Char) :=
  if containsSub "потому".toList t then
    let r := stripChars " :,-".toList (removeFirst "что".toList (afterFirst "потому".toList t))
    if r.isEmpty then none else some r
  else if containsSub [','] t then
    let r := stripWs (afterFirst [','] t)
    if r.isEmpty then none else some r
  else none

/-! ## Checkin ledger (`checkins` table and its accessors)

`init_db` creates `idx_checkins_uniq` with a plain `CREATE INDEX`, so the
table carries no uniqueness constraint; the `INSERT` in `ensure_checkin`
therefore always succeeds and its `except` handler is unreachable unless
the storage layer itself fails. -/

inductive Status where
  | pending
  | done
  | miss
deriving DecidableEq, Repr

structure Checkin where
  id : Nat
  userId : Nat
  habitId : Nat
  day : String
  timeSlot : String
  status : Status
  reason : Option (List Char)
deriving DecidableEq, Repr

structure DB where
  checkins : List Checkin
  nextId : Nat
deriving DecidableEq, Repr

/-- The `WHERE user_id=? AND habit_id=? AND day=? AND time_slot=?` key test. -/
def keyEq (c : Checkin) (uid hid : Nat) (day slot : String) : Bool :=
  c.userId == uid && c.habitId == hid && c.day == day && c.timeSlot == slot

/-- `ensure_checkin`: insert a pending row for the key.  With the actual
(non-unique) index the insert always succeeds and the function returns
`True`. -/
def ensureCheckin (db : DB) (uid hid : Nat) (day slot : String) : DB × Bool :=
  (⟨db.checkins ++ [⟨db.nextId, uid, hid, day, slot, .pending, none⟩], db.nextId + 1⟩, true)

/-- First row satisfying a predicate, in table (rowid) order: the
`SELECT ... LIMIT 1` scan. -/
def findRow (p : Checkin → Bool) : List Checkin → Option Checkin
  | [] => none
  | c :: rest => if p c then some c else findRow p rest

/-- `get_checkin_id`: `SELECT id ... LIMIT 1` in rowid order. -/
def getCheckinId (db : DB) (uid hid : Nat) (day slot : String) : Option Nat :=
  (findRow (fun c => keyEq c uid hid day slot) db.checkins).map (fun c => c.id)

/-- Row lookup by primary key, used to state properties of the updates. -/
def findCheckin (db : DB) (cid : Nat) : Option Checkin :=
  findRow (fun c => c.id == cid) db.checkins

/-- `set_checkin_done`: `UPDATE checkins SET status='done', reason=NULL WHERE id=?`. -/
def setCheckinDone (db : DB) (cid : Nat) : DB :=
  ⟨db.checkins.map (fun c => if c.id == cid then { c with status := .done, reason := none } else c),
   db.nextId⟩

/-- `set_checkin_miss`: `UPDATE checkins SET status='miss', reason=? WHERE id=?`. -/
def setCheckinMiss (db : DB) (cid : Nat) (reason : List Char) : DB :=
  ⟨db.checkins.map (fun c => if c.id == cid then { c with status := .miss, reason := some reason } else c),
   db.nextId⟩

/-! ### Storage-failure model

`storageDown = true` stands for sqlite raising on the statement.
`ensure_checkin` wraps its body in `try/except Exception: return False`, so
a raised storage error is converted into a normal `False` return;
`set_checkin_done` and `set_checkin_miss` have no handler, so the exception
propagates to the caller (`Except.error`). -/

def ensureCheckinE (storageDown : Bool) (db : DB) (uid hid : Nat) (day slot : String) :
    Except Unit (DB × Bool) :=
  if storageDown then Except.ok (db, false)
  else Except.ok (ensureCheckin db uid hid day slot)

def setCheckinDoneE (storageDown : Bool) (db : DB) (cid : Nat) : Except Unit DB :=
  if storageDown then Except.error () else Except.ok (setCheckinDone db cid)

def setCheckinMissE (storageDown : Bool) (db : DB) (cid : Nat) (reason : List Char) :
    Except Unit DB :=
  if storageDown then Except.error () else Except.ok (setCheckinMiss db cid reason)

/-! ## Orchestrator state and event trace -/

structure Session where
  queue : List (Nat × String)
  idx : Nat
  day : String
  timeSlot : String
deriving DecidableEq, Repr

/-- The module-level mutable state: the `checkins` table plus the
`SESSIONS` and `WAIT_REASON` dicts (`none` = key absent). -/
structure BotState where
  db : DB
  sessions : Nat → Option Session
  waitReason : Nat → Option Nat

/-- Point update of a dict. -/
def upd {α : Type} (f : Nat → Option α) (k : Nat) (v : Option α) : Nat → Option α :=
  fun n => if n = k then v else f n

/-- Observable actions, in program order: ledger inserts and the messages
the bot sends (message wording abstracted to the send site). -/
inductive Ev where
  | ensureEv (uid hid : Nat) (day slot : String)
  | promptEv (uid : Nat) (title : String)
  | doneMsg (uid : Nat)
  | missAck (uid : Nat)
  | askReason (uid : Nat)
  | reprompt (uid : Nat)
  | sessionDone (uid : Nat)
  | noHabitsMsg (uid : Nat)
  | busyMsg (uid : Nat)
deriving DecidableEq, Repr

/-- `ask_next_habit`: prompt for the current queue entry, or finish and
discard the session when the cursor has passed the end. -/
def askNextHabit (st : BotState) (uid : Nat) : BotState × List Ev :=
  match st.sessions uid with
  | none => (st, [])
  | some sess =>
    match sess.queue[sess.idx]? with
    | none => ({ st with sessions := upd st.sessions uid none }, [.sessionDone uid])
    | some (_, title) => (st, [.promptEv uid title])

/-- `start_checkin_session`: no-op on an empty queue; otherwise insert a
pending ledger row for every habit, register the session at cursor 0, and
prompt for the first habit.  `day` (`dt.date.today()` in the source) is a
clock-seam parameter. -/
def startCheckinSession (st : BotState) (uid : Nat) (habits : List (Nat × String))
    (timeSlot day : String) : BotState × List Ev :=
  if habits.isEmpty then (st, [])
  else
    let db1 := habits.foldl (fun d h => (ensureCheckin d uid h.1 day timeSlot).1) st.db
    let st1 : BotState :=
      { db := db1
        sessions := upd st.sessions uid (some ⟨habits, 0, day, timeSlot⟩)
        waitReason := st.waitReason }
    ((askNextHabit st1 uid).1,
     habits.map (fun h => Ev.ensureEv uid h.1 day timeSlot) ++ (askNextHabit st1 uid).2)

/-- `handle_session_answer`: the per-user state machine step for one inbound
text.  Returns the new state, the emitted events and the handler's boolean
result (`True` when the message was consumed by the session machinery). -/
def handleSessionAnswer (st : BotState) (uid : Nat) (text : List Char) :
    BotState × List Ev × Bool :=
  match st.waitReason uid with
  | some checkinId =>
    let st1 : BotState := { st with waitReason := upd st.waitReason uid none }
    let st2 : BotState := { st1 with db := setCheckinMiss st1.db checkinId (stripWs text) }
    match st2.sessions uid with
    | some sess =>
      let st3 : BotState :=
        { st2 with sessions := upd st2.sessions uid (some { sess with idx := sess.idx + 1 }) }
      ((askNextHabit st3 uid).1, .missAck uid :: (askNextHabit st3 uid).2, true)
    | none => (st2, [.missAck uid], true)
  | none =>
    match st.sessions uid with
    | none => (st, [], false)
    | some sess =>
      match parseYesNo text with
      | none => (st, [.reprompt uid], true)
      | some (answer, reason) =>
        match sess.queue[sess.idx]? with
        | none => (st, [], true)
        | some (hid, _) =>
          let found :=
            match getCheckinId st.db uid hid sess.day sess.timeSlot with
            | some cid => (st.db, some cid)
            | none =>
              let db1 := (ensureCheckin st.db uid hid sess.day sess.timeSlot).1
              (db1, getCheckinId db1 uid hid sess.day sess.timeSlot)
          match answer with
          | .yes =>
            let db2 := match found.2 with
              | some cid => setCheckinDone found.1 cid
              | none => found.1
            let st1 : BotState :=
              { st with
                db := db2
                sessions := upd st.sessions uid (some { sess with idx := sess.idx + 1 }) }
            ((askNextHabit st1 uid).1, .doneMsg uid :: (askNextHabit st1 uid).2, true)
          | .no =>
            match reason with
            | some r =>
              let db2 := match found.2 with
                | some cid => setCheckinMiss found.1 cid r
                | none => found.1
              let st1 : BotState :=
                { st with
                  db := db2
                  sessions := upd st.sessions uid (some { sess with idx := sess.idx + 1 }) }
              ((askNextHabit st1 uid).1, .missAck uid :: (askNextHabit st1 uid).2, true)
            | none =>
              let st1 : BotState :=
                { st with
                  db := found.1
                  waitReason :=
                    match found.2 with
                    | some cid => upd st.waitReason uid (some cid)
                    | none => st.waitReason }
              (st1, [.askReason uid], true)

/-! ## Time-based trigger (`scheduler_tick`, `start_manual_checkin`) -/

/-- One step of `grouped[uid].append((hid, title))`: append to the user's
group, creating it at the end on first occurrence (defaultdict insertion
order). -/
def insertGrouped (acc : List (Nat × List (Nat × String))) (uid : Nat) (h : Nat × String) :
    List (Nat × List (Nat × String)) :=
  match acc with
  | [] => [(uid, [h])]
  | (u, hs) :: rest =>
    if u == uid then (u, hs ++ [h]) :: rest
    else (u, hs) :: insertGrouped rest uid h

/-- The `defaultdict(list)` grouping loop over the query rows
`(user_id, habit_id, title)`. -/
def groupRows (rows : List (Nat × Nat × String)) : List (Nat × List (Nat × String)) :=
  rows.foldl (fun acc r => insertGrouped acc r.1 r.2) []

/-- The per-user body of the trigger loop: skip users already mid-session
or mid-reason-wait, otherwise start a session. -/
def tickStep (day slot : String) (p : BotState × List Ev) (g : Nat × List (Nat × String)) :
    BotState × List Ev :=
  if (p.1.sessions g.1).isSome || (p.1.waitReason g.1).isSome then p
  else ((startCheckinSession p.1 g.1 g.2 slot day).1,
        p.2 ++ (startCheckinSession p.1 g.1 g.2 slot day).2)

/-- `scheduler_tick`: group the due rows (delivered by the SQL query with
`ORDER BY h.user_id, h.id`) by user and start a session for each eligible
user.  `day`/`slot` are the clock-seam parameters. -/
def schedulerTick (st : BotState) (rows : List (Nat × Nat × String)) (day slot : String) :
    BotState × List Ev :=
  (groupRows rows).foldl (tickStep day slot) (st, [])

/-- `start_manual_checkin`: reject when the user has no habits or is
already mid-check-in, else start a session with slot `"manual"`. -/
def startManualCheckin (st : BotState) (uid : Nat) (habits : List (Nat × String))
    (day : String) : BotState × List Ev :=
  if habits.isEmpty then (st, [.noHabitsMsg uid])
  else if (st.sessions uid).isSome || (st.waitReason uid).isSome then (st, [.busyMsg uid])
  else startCheckinSession st uid habits "manual" day

/-- The sort contract of the trigger's SQL query: rows are ordered by
`(user_id, habit_id)` lexicographically. -/
def rowLe (a b : Nat × Nat × String) : Prop :=
  a.1 < b.1 ∨ (a.1 = b.1 ∧ a.2.1 ≤ b.2.1)

/-- A regex-style word character: letter, digit, underscore (covering the
ASCII and Cyrillic ranges the bot's vocabulary uses). -/
def isWordChar (c : Char) : Bool :=
  c.isAlphanum || c == '_' || (0x400 ≤ c.toNat && c.toNat ≤ 0x4FF)

/-- The affirmative condition exactly as the spec words it: after trimming
and lowercasing, an exact match against the yes-vocabulary, or the local
word for yes followed by a word boundary (end of input or a non-word
character). -/
def claimAffirm (text : List Char) : Bool :=
  let t := normL text
  inVocab t YES_WORDS ||
    (begWith "да".toList t &&
      (match t.drop 2 with
       | [] => true
       | c :: _ => !(isWordChar c)))

/-! ## Concrete states used by witnesses and counterexamples -/

/-- The empty bot state: empty ledger, no sessions, no reason waits. -/
def wSt0 : BotState := ⟨⟨[], 0⟩, fun _ => none, fun _ => none⟩

/-- State after the trigger started a one-habit session for user 1. -/
def wSt1 : BotState := (startCheckinSession wSt0 1 [(7, "Вода")] "09:00" "2026-10-12").1

/-- The session registered in `wSt1`. -/
def wSess : Session := ⟨[(7, "Вода")], 0, "2026-10-12", "09:00"⟩

/-- The pending ledger row created in `wSt1`. -/
def wRow : Checkin := ⟨0, 1, 7, "2026-10-12", "09:00", .pending, none⟩

/-- A state where user 1 has an active session but the matching ledger row
is missing (empty table). -/
def wStM : BotState := ⟨⟨[], 0⟩, upd (fun _ => none) 1 (some wSess), fun _ => none⟩

/-! ## Ledger lemmas -/

theorem findRow_map_upd (l : List Checkin) (cid : Nat) (c : Checkin) (f : Checkin → Checkin)
    (hf : ∀ x, (f x).id = x.id)
    (h : findRow (fun x => x.id == cid) l = some c) :
    findRow (fun x => x.id == cid) (l.map (fun x => if x.id == cid then f x else x))
      = some (f c) := by
  induction l with
  | nil => simp [findRow] at h
  | cons a as ih =>
    cases ha : (a.id == cid) with
    | true =>
      simp only [findRow, ha, if_true, Option.some.injEq] at h
      subst h
      simp [findRow, ha, hf]
    | false =>
      simp only [findRow, ha, Bool.false_eq_true, if_false] at h
      simp only [List.map_cons, findRow, ha, Bool.false_eq_true, if_false]
      exact ih h

theorem findCheckin_setDone (db : DB) (cid : Nat) (c : Checkin)
    (h : findCheckin db cid = some c) :
    findCheckin (setCheckinDone db cid) cid
      = some { c with status := .done, reason := none } := by
  unfold findCheckin setCheckinDone
  exact findRow_map_upd db.checkins cid c _ (fun _ => rfl) h

theorem findCheckin_setMiss (db : DB) (cid : Nat) (c : Checkin) (r : List Char)
    (h : findCheckin db cid = some c) :
    findCheckin (setCheckinMiss db cid r) cid
      = some { c with status := .miss, reason := some r } := by
  unfold findCheckin setCheckinMiss
  exact findRow_map_upd db.checkins cid c _ (fun _ => rfl) h

theorem findRow_map_keyPres (l : List Checkin) (uid hid : Nat) (day slot : String)
    (g : Checkin → Checkin)
    (hkey : ∀ x, keyEq (g x) uid hid day slot = keyEq x uid hid day slot)
    (hgid : ∀ x, (g x).id = x.id) :
    (findRow (fun c => keyEq c uid hid day slot) (l.map g)).map (fun c => c.id)
      = (findRow (fun c => keyEq c uid hid day slot) l).map (fun c => c.id) := by
  induction l with
  | nil => rfl
  | cons a as ih =>
    cases hk : keyEq a uid hid day slot with
    | true => simp [findRow, hkey, hk, hgid]
    | false => simpa [findRow, hkey, hk] using ih

theorem getCheckinId_setDone (db : DB) (cid uid hid : Nat) (day slot : String) :
    getCheckinId (setCheckinDone db cid) uid hid day slot
      = getCheckinId db uid hid day slot := by
  unfold getCheckinId setCheckinDone
  refine findRow_map_keyPres db.checkins uid hid day slot _ ?_ ?_ <;>
    intro x <;> cases hx : (x.id == cid) <;> simp [hx, keyEq]

theorem getCheckinId_setMiss (db : DB) (cid uid hid : Nat) (day slot : String)
    (r : List Char) :
    getCheckinId (setCheckinMiss db cid r) uid hid day slot
      = getCheckinId db uid hid day slot := by
  unfold getCheckinId setCheckinMiss
  refine findRow_map_keyPres db.checkins uid hid day slot _ ?_ ?_ <;>
    intro x <;> cases hx : (x.id == cid) <;> simp [hx, keyEq]

theorem findRow_append_none (p : Checkin → Bool) (l₁ l₂ : List Checkin)
    (h : findRow p l₁ = none) : findRow p (l₁ ++ l₂) = findRow p l₂ := by
  induction l₁ with
  | nil => rfl
  | cons a as ih =>
    cases hp : p a with
    | true => simp [findRow, hp] at h
    | false =>
      simp only [findRow, hp, Bool.false_eq_true, if_false] at h
      simp only [List.cons_append, findRow, hp, Bool.false_eq_true, if_false]
      exact ih h

theorem getCheckinId_ensure_of_none (db : DB) (uid hid : Nat) (day slot : String)
    (h : getCheckinId db uid hid day slot = none) :
    getCheckinId (ensureCheckin db uid hid day slot).1 uid hid day slot
      = some db.nextId := by
  unfold getCheckinId at h ⊢
  have h' : findRow (fun c => keyEq c uid hid day slot) db.checkins = none := by
    cases hf : findRow (fun c => keyEq c uid hid day slot) db.checkins <;>
      simp [hf] at h ⊢
  unfold ensureCheckin
  rw [findRow_append_none _ _ _ h']
  simp [findRow, keyEq]

theorem findRow_none_of_lt (l : List Checkin) (n : Nat)
    (hfresh : ∀ c ∈ l, c.id < n) :
    findRow (fun c => c.id == n) l = none := by
  induction l with
  | nil => rfl
  | cons a as ih =>
    have ha : (a.id == n) = false := by
      simp [Nat.ne_of_lt (hfresh a (List.mem_cons_self a as))]
    simp only [findRow, ha, Bool.false_eq_true, if_false]
    exact ih (fun c hc => hfresh c (List.mem_cons_of_mem a hc))

theorem findCheckin_ensure_fresh (db : DB) (uid hid : Nat) (day slot : String)
    (hfresh : ∀ c ∈ db.checkins, c.id < db.nextId) :
    findCheckin (ensureCheckin db uid hid day slot).1 db.nextId
      = some ⟨db.nextId, uid, hid, day, slot, .pending, none⟩ := by
  unfold findCheckin ensureCheckin
  rw [findRow_append_none _ _ _ (findRow_none_of_lt db.checkins db.nextId hfresh)]
  simp [findRow]

/-! ## Orchestrator lemmas -/

theorem askNextHabit_db (st : BotState) (uid : Nat) :
    (askNextHabit st uid).1.db = st.db := by
  unfold askNextHabit
  cases hs : st.sessions uid with
  | none => rfl
  | some sess =>
    cases hq : sess.queue[sess.idx]? with
    | none => simp [hq]
    | some p =>
      obtain ⟨a, b⟩ := p
      simp [hq]

theorem askNextHabit_wait (st : BotState) (uid : Nat) :
    (askNextHabit st uid).1.waitReason = st.waitReason := by
  unfold askNextHabit
  cases hs : st.sessions uid with
  | none => rfl
  | some sess =>
    cases hq : sess.queue[sess.idx]? with
    | none => simp [hq]
    | some p =>
      obtain ⟨a, b⟩ := p
      simp [hq]

theorem askNextHabit_sessions_ne (st : BotState) (uid u : Nat) (hu : u ≠ uid) :
    (askNextHabit st uid).1.sessions u = st.sessions u := by
  unfold askNextHabit
  cases hs : st.sessions uid with
  | none => rfl
  | some sess =>
    cases hq : sess.queue[sess.idx]? with
    | none => simp [hq, upd, hu]
    | some p =>
      obtain ⟨a, b⟩ := p
      simp [hq]

theorem handle_asking_yes (st : BotState) (uid : Nat) (sess : Session) (hid : Nat)
    (title : String) (cid : Nat) (text : List Char)
    (hw : st.waitReason uid = none)
    (hs : st.sessions uid = some sess)
    (hp : parseYesNo text = some (.yes, none))
    (hq : sess.queue[sess.idx]? = some (hid, title))
    (hc : getCheckinId st.db uid hid sess.day sess.timeSlot = some cid) :
    (handleSessionAnswer st uid text).1.db = setCheckinDone st.db cid ∧
    (handleSessionAnswer st uid text).1.waitReason = st.waitReason := by
  unfold handleSessionAnswer
  simp only [hw, hs, hp, hq, hc]
  exact ⟨askNextHabit_db _ _, askNextHabit_wait _ _⟩

theorem handle_asking_no_inline (st : BotState) (uid : Nat) (sess : Session) (hid : Nat)
    (title : String) (cid : Nat) (text r : List Char)
    (hw : st.waitReason uid = none)
    (hs : st.sessions uid = some sess)
    (hp : parseYesNo text = some (.no, some r))
    (hq : sess.queue[sess.idx]? = some (hid, title))
    (hc : getCheckinId st.db uid hid sess.day sess.timeSlot = some cid) :
    (handleSessionAnswer st uid text).1.db = setCheckinMiss st.db cid r ∧
    (handleSessionAnswer st uid text).1.waitReason = st.waitReason := by
  unfold handleSessionAnswer
  simp only [hw, hs, hp, hq, hc]
  exact ⟨askNextHabit_db _ _, askNextHabit_wait _ _⟩

theorem handle_asking_no_wait (st : BotState) (uid : Nat) (sess : Session) (hid : Nat)
    (title : String) (cid : Nat) (text : List Char)
    (hw : st.waitReason uid = none)
    (hs : st.sessions uid = some sess)
    (hp : parseYesNo text = some (.no, none))
    (hq : sess.queue[sess.idx]? = some (hid, title))
    (hc : getCheckinId st.db uid hid sess.day sess.timeSlot = some cid) :
    (handleSessionAnswer st uid text).1.db = st.db ∧
    (handleSessionAnswer st uid text).1.waitReason = upd st.waitReason uid (some cid) := by
  unfold handleSessionAnswer
  simp only [hw, hs, hp, hq, hc]
  constructor <;> trivial

theorem handle_wait_db (st : BotState) (uid : Nat) (text : List Char) (cid : Nat)
    (hw : st.waitReason uid = some cid) :
    (handleSessionAnswer st uid text).1.db = setCheckinMiss st.db cid (stripWs text) := by
  unfold handleSessionAnswer
  simp only [hw]
  cases hs2 : st.sessions uid with
  | none => simp [hs2]
  | some sess =>
    simp only [hs2]
    exact askNextHabit_db _ _

theorem handle_asking_yes_missing (st : BotState) (uid : Nat) (sess : Session) (hid : Nat)
    (title : String) (text : List Char)
    (hw : st.waitReason uid = none)
    (hs : st.sessions uid = some sess)
    (hp : parseYesNo text = some (.yes, none))
    (hq : sess.queue[sess.idx]? = some (hid, title))
    (hc : getCheckinId st.db uid hid sess.day sess.timeSlot = none) :
    (handleSessionAnswer st uid text).1.db
      = setCheckinDone (ensureCheckin st.db uid hid sess.day sess.timeSlot).1 st.db.nextId := by
  unfold handleSessionAnswer
  simp only [hw, hs, hp, hq, hc,
    getCheckinId_ensure_of_none st.db uid hid sess.day sess.timeSlot hc]
  exact askNextHabit_db _ _

theorem handle_asking_no_inline_missing (st : BotState) (uid : Nat) (sess : Session)
    (hid : Nat) (title : String) (text r : List Char)
    (hw : st.waitReason uid = none)
    (hs : st.sessions uid = some sess)
    (hp : parseYesNo text = some (.no, some r))
    (hq : sess.queue[sess.idx]? = some (hid, title))
    (hc : getCheckinId st.db uid hid sess.day sess.timeSlot = none) :
    (handleSessionAnswer st uid text).1.db
      = setCheckinMiss (ensureCheckin st.db uid hid sess.day sess.timeSlot).1 st.db.nextId r := by
  unfold handleSessionAnswer
  simp only [hw, hs, hp, hq, hc,
    getCheckinId_ensure_of_none st.db uid hid sess.day sess.timeSlot hc]
  exact askNextHabit_db _ _

theorem handle_asking_no_wait_missing (st : BotState) (uid : Nat) (sess : Session)
    (hid : Nat) (title : String) (text : List Char)
    (hw : st.waitReason uid = none)
    (hs : st.sessions uid = some sess)
    (hp : parseYesNo text = some (.no, none))
    (hq : sess.queue[sess.idx]? = some (hid, title))
    (hc : getCheckinId st.db uid hid sess.day sess.timeSlot = none) :
    (handleSessionAnswer st uid text).1.db
      = (ensureCheckin st.db uid hid sess.day sess.timeSlot).1 ∧
    (handleSessionAnswer st uid text).1.waitReason
      = upd st.waitReason uid (some st.db.nextId) := by
  unfold handleSessionAnswer
  simp only [hw, hs, hp, hq, hc,
    getCheckinId_ensure_of_none st.db uid hid sess.day sess.timeSlot hc]
  constructor <;> trivial

theorem foldl_ensure_filter (habits : List (Nat × String)) (db : DB) (uid u : Nat)
    (day slot : String) (hu : u ≠ uid) :
    ((habits.foldl (fun d h => (ensureCheckin d uid h.1 day slot).1) db).checkins.filter
        (fun c => c.userId == u))
      = db.checkins.filter (fun c => c.userId == u) := by
  induction habits generalizing db with
  | nil => rfl
  | cons h hs ih =>
    rw [List.foldl_cons, ih]
    show (db.checkins ++ [(⟨db.nextId, uid, h.1, day, slot, .pending, none⟩ : Checkin)]).filter
        (fun c => c.userId == u) = db.checkins.filter (fun c => c.userId == u)
    rw [List.filter_append]
    have hne : ((⟨db.nextId, uid, h.1, day, slot, .pending, none⟩ : Checkin).userId == u)
        = false := by
      simpa using Ne.symm hu
    simp [List.filter, hne]

theorem start_preserve (st : BotState) (uid : Nat) (habits : List (Nat × String))
    (slot day : String) (u : Nat) (hu : u ≠ uid) :
    (startCheckinSession st uid habits slot day).1.sessions u = st.sessions u ∧
    (startCheckinSession st uid habits slot day).1.waitReason = st.waitReason ∧
    (startCheckinSession st uid habits slot day).1.db.checkins.filter (fun c => c.userId == u)
      = st.db.checkins.filter (fun c => c.userId == u) := by
  cases habits with
  | nil => exact ⟨rfl, rfl, rfl⟩
  | cons h hs =>
    unfold startCheckinSession
    simp only [List.isEmpty_cons, Bool.false_eq_true, if_false]
    refine ⟨?_, ?_, ?_⟩
    · rw [askNextHabit_sessions_ne _ uid u hu]
      simp [upd, hu]
    · rw [askNextHabit_wait]
    · rw [askNextHabit_db]
      exact foldl_ensure_filter (h :: hs) st.db uid u day slot hu

theorem tick_fold_skip (day slot : String) (uid : Nat) (st0 : BotState)
    (gs : List (Nat × List (Nat × String))) (p : BotState × List Ev)
    (hbusy : (st0.sessions uid).isSome = true ∨ (st0.waitReason uid).isSome = true)
    (h1 : p.1.sessions uid = st0.sessions uid)
    (h2 : p.1.waitReason uid = st0.waitReason uid)
    (h3 : p.1.db.checkins.filter (fun c => c.userId == uid)
            = st0.db.checkins.filter (fun c => c.userId == uid)) :
    (gs.foldl (tickStep day slot) p).1.sessions uid = st0.sessions uid ∧
    (gs.foldl (tickStep day slot) p).1.waitReason uid = st0.waitReason uid ∧
    (gs.foldl (tickStep day slot) p).1.db.checkins.filter (fun c => c.userId == uid)
      = st0.db.checkins.filter (fun c => c.userId == uid) := by
  induction gs generalizing p with
  | nil => exact ⟨h1, h2, h3⟩
  | cons g gs ih =>
    rw [List.foldl_cons]
    by_cases hg : ((p.1.sessions g.1).isSome || (p.1.waitReason g.1).isSome) = true
    · have hstep : tickStep day slot p g = p := by
        unfold tickStep
        rw [if_pos hg]
      rw [hstep]
      exact ih p h1 h2 h3
    · have hne : uid ≠ g.1 := by
        intro he
        apply hg
        rw [← he, h1, h2]
        rcases hbusy with h | h <;> simp [h]
      have hpres := start_preserve p.1 g.1 g.2 slot day uid hne
      have hstep : tickStep day slot p g
          = ((startCheckinSession p.1 g.1 g.2 slot day).1,
             p.2 ++ (startCheckinSession p.1 g.1 g.2 slot day).2) := by
        unfold tickStep
        rw [if_neg hg]
      rw [hstep]
      exact ih _ (hpres.1.trans h1) ((congrFun hpres.2.1 uid).trans h2)
        (hpres.2.2.trans h3)

theorem askNextHabit_evs (st : BotState) (uid : Nat) (sess : Session) (a : Nat) (b : String)
    (hs : st.sessions uid = some sess) (hq : sess.queue[sess.idx]? = some (a, b)) :
    (askNextHabit st uid).2 = [Ev.promptEv uid b] := by
  unfold askNextHabit
  simp [hs, hq]

theorem start_trace (st : BotState) (uid : Nat) (h : Nat × String)
    (rest : List (Nat × String)) (slot day : String) :
    (startCheckinSession st uid (h :: rest) slot day).2
      = ((h :: rest).map (fun x => Ev.ensureEv uid x.1 day slot)) ++ [Ev.promptEv uid h.2] := by
  unfold startCheckinSession
  simp only [List.isEmpty_cons, Bool.false_eq_true, if_false]
  rw [askNextHabit_evs _ uid ⟨h :: rest, 0, day, slot⟩ h.1 h.2 (by simp [upd]) (by simp)]

theorem mem_insertGrouped (acc : List (Nat × List (Nat × String))) (v : Nat)
    (h : Nat × String) (u : Nat) (us : List (Nat × String))
    (hm : (u, us) ∈ insertGrouped acc v h) :
    (u, us) ∈ acc ∨
    (u = v ∧ (us = [h] ∨ ∃ ws, (u, ws) ∈ acc ∧ us = ws ++ [h])) := by
  induction acc with
  | nil =>
    simp only [insertGrouped, List.mem_singleton, Prod.mk.injEq] at hm
    exact Or.inr ⟨hm.1, Or.inl hm.2⟩
  | cons a rest ih =>
    obtain ⟨w, ws⟩ := a
    simp only [insertGrouped] at hm
    by_cases hw : (w == v) = true
    · rw [if_pos hw] at hm
      rcases List.mem_cons.mp hm with he | ht
      · obtain ⟨he1, he2⟩ := Prod.mk.injEq .. ▸ he
        refine Or.inr ⟨he1.trans (beq_iff_eq.mp hw), Or.inr ⟨ws, ?_, he2⟩⟩
        rw [he1]
        exact List.mem_cons_self _ _
      · exact Or.inl (List.mem_cons_of_mem _ ht)
    · rw [if_neg hw] at hm
      rcases List.mem_cons.mp hm with he | ht
      · exact Or.inl (he ▸ List.mem_cons_self _ _)
      · rcases ih ht with hin | ⟨hu, hcase⟩
        · exact Or.inl (List.mem_cons_of_mem _ hin)
        · refine Or.inr ⟨hu, ?_⟩
          rcases hcase with he | ⟨zs, hz, hzeq⟩
          · exact Or.inl he
          · exact Or.inr ⟨zs, List.mem_cons_of_mem _ hz, hzeq⟩

theorem groupRows_sorted_aux (rows : List (Nat × Nat × String)) :
    ∀ acc : List (Nat × List (Nat × String)),
      rows.Pairwise rowLe →
      (∀ u us, (u, us) ∈ acc →
        us.Pairwise (fun a b => a.1 ≤ b.1) ∧
        ∀ a ∈ us, ∀ r ∈ rows, r.1 = u → a.1 ≤ r.2.1) →
      ∀ u us, (u, us) ∈ rows.foldl (fun acc r => insertGrouped acc r.1 r.2) acc →
        us.Pairwise (fun a b => a.1 ≤ b.1) := by
  induction rows with
  | nil =>
    intro acc _ hacc u us hm
    exact (hacc u us hm).1
  | cons r rest ih =>
    intro acc hrows hacc u us hm
    rw [List.foldl_cons] at hm
    have hrest : rest.Pairwise rowLe := (List.pairwise_cons.mp hrows).2
    have hhead : ∀ r2 ∈ rest, rowLe r r2 := (List.pairwise_cons.mp hrows).1
    have hbound : ∀ r2 ∈ rest, r2.1 = r.1 → r.2.1 ≤ r2.2.1 := by
      intro r2 hr2 he
      rcases hhead r2 hr2 with hlt | ⟨_, hle⟩
      · omega
      · exact hle
    refine ih (insertGrouped acc r.1 r.2) hrest ?_ u us hm
    intro v vs hv
    rcases mem_insertGrouped acc r.1 r.2 v vs hv with hin | ⟨hveq, hcase⟩
    · exact ⟨(hacc v vs hin).1,
        fun a ha r2 hr2 he => (hacc v vs hin).2 a ha r2 (List.mem_cons_of_mem _ hr2) he⟩
    · rcases hcase with he | ⟨zs, hz, hzeq⟩
      · subst he
        refine ⟨List.pairwise_singleton _ _, ?_⟩
        intro a ha r2 hr2 he2
        rw [List.mem_singleton.mp ha]
        exact hbound r2 hr2 (he2.trans hveq)
      · subst hzeq
        have hold := hacc v zs hz
        constructor
        · rw [List.pairwise_append]
          refine ⟨hold.1, List.pairwise_singleton _ _, ?_⟩
          intro a ha b hb
          rw [List.mem_singleton.mp hb]
          exact hold.2 a ha r (List.mem_cons_self _ _) hveq.symm
        · intro a ha r2 hr2 he2
          rcases List.mem_append.mp ha with ha2 | ha2
          · exact hold.2 a ha2 r2 (List.mem_cons_of_mem _ hr2) he2
          · rw [List.mem_singleton.mp ha2]
            exact hbound r2 hr2 (he2.trans hveq)

/-! ## Classifier lemmas -/

theorem begWith_cons_ne_nil (c : Char) (ps : List Char) (t : List Char)
    (h : begWith (c :: ps) t = true) : t.isEmpty = false := by
  cases t with
  | nil => simp [begWith] at h
  | cons b ts => rfl

theorem begWith_da_not_net (t : List Char)
    (h : begWith "да ".toList t = true) : begWith "нет".toList t = false := by
  cases t with
  | nil => simp [begWith] at h
  | cons b ts =>
    simp only [begWith, Bool.and_eq_true] at h
    have hb : b = 'д' := (beq_iff_eq.mp h.1).symm
    subst hb
    have hne : ('н' == 'д') = false := by decide
    simp [begWith, hne]

theorem yes_vocab_facts (t : List Char) (hv : inVocab t YES_WORDS = true) :
    t.isEmpty = false ∧ begWith "нет".toList t = false := by
  simp only [inVocab, YES_WORDS, List.any_cons, List.any_nil, Bool.or_eq_true,
    beq_iff_eq] at hv
  rcases hv with rfl|rfl|rfl|rfl|rfl|rfl|rfl|rfl|rfl|rfl|hfalse
  · exact ⟨by decide, by decide⟩
  · exact ⟨by decide, by decide⟩
  · exact ⟨by decide, by decide⟩
  · exact ⟨by decide, by decide⟩
  · exact ⟨by decide, by decide⟩
  · exact ⟨by decide, by decide⟩
  · exact ⟨by decide, by decide⟩
  · exact ⟨by decide, by decide⟩
  · exact ⟨by decide, by decide⟩
  · exact ⟨by decide, by decide⟩
  · cases hfalse

theorem classify_no_reason (t : List Char) (r : Option (List Char))
    (h : classify t = some (.no, r)) : r = reasonSpec t := by
  unfold classify at h
  by_cases h0 : t.isEmpty = true
  · rw [if_pos h0] at h; cases h
  rw [if_neg h0] at h
  by_cases h1 : begWith "нет".toList t = true
  · rw [if_pos h1] at h
    simp only [Option.some.injEq, Prod.mk.injEq] at h
    obtain ⟨-, h2r⟩ := h
    subst h2r
    rfl
  rw [if_neg h1] at h
  by_cases h2 : (inVocab t YES_WORDS || begWith "да ".toList t) = true
  · rw [if_pos h2] at h; simp at h
  rw [if_neg h2] at h
  by_cases h3 : begWith "не сделал".toList t = true
  · rw [if_pos h3] at h
    simp only [Option.some.injEq, Prod.mk.injEq] at h
    obtain ⟨-, h2r⟩ := h
    subst h2r
    rfl
  rw [if_neg h3] at h
  by_cases h4 : begWith "не выполнил".toList t = true
  · rw [if_pos h4] at h
    simp only [Option.some.injEq, Prod.mk.injEq] at h
    obtain ⟨-, h2r⟩ := h
    subst h2r
    rfl
  rw [if_neg h4] at h
  by_cases h5 : begWith "пропустил".toList t = true
  · rw [if_pos h5] at h
    simp only [Option.some.injEq, Prod.mk.injEq] at h
    obtain ⟨-, h2r⟩ := h
    subst h2r
    rfl
  rw [if_neg h5] at h
  by_cases h6 : inVocab t NO_WORDS = true
  · rw [if_pos h6] at h
    simp only [Option.some.injEq, Prod.mk.injEq] at h
    obtain ⟨-, h2r⟩ := h
    subst h2r
    have hv := h6
    simp only [inVocab, NO_WORDS, List.any_cons, List.any_nil, Bool.or_eq_true,
      beq_iff_eq] at hv
    rcases hv with rfl|rfl|rfl|rfl|rfl|rfl|rfl|hfalse
    · decide
    · decide
    · decide
    · decide
    · decide
    · decide
    · decide
    · cases hfalse
  · rw [if_neg h6] at h
    cases h

theorem classify_yes_iff (t : List Char) :
    classify t = some (.yes, none)
      ↔ (inVocab t YES_WORDS || begWith "да ".toList t) = true := by
  constructor
  · intro h
    unfold classify at h
    by_cases h0 : t.isEmpty = true
    · rw [if_pos h0] at h; cases h
    rw [if_neg h0] at h
    by_cases h1 : begWith "нет".toList t = true
    · rw [if_pos h1] at h; simp at h
    rw [if_neg h1] at h
    by_cases h2 : (inVocab t YES_WORDS || begWith "да ".toList t) = true
    · exact h2
    rw [if_neg h2] at h
    by_cases h3 : begWith "не сделал".toList t = true
    · rw [if_pos h3] at h; simp at h
    rw [if_neg h3] at h
    by_cases h4 : begWith "не выполнил".toList t = true
    · rw [if_pos h4] at h; simp at h
    rw [if_neg h4] at h
    by_cases h5 : begWith "пропустил".toList t = true
    · rw [if_pos h5] at h; simp at h
    rw [if_neg h5] at h
    by_cases h6 : inVocab t NO_WORDS = true
    · rw [if_pos h6] at h; simp at h
    · rw [if_neg h6] at h; cases h
  · intro h2
    have hfacts : t.isEmpty = false ∧ begWith "нет".toList t = false := by
      cases hv : inVocab t YES_WORDS with
      | true => exact yes_vocab_facts t hv
      | false =>
        have hp : begWith "да ".toList t = true := by
          rw [hv] at h2
          simpa using h2
        exact ⟨begWith_cons_ne_nil 'д' "а ".toList t hp, begWith_da_not_net t hp⟩
    unfold classify
    rw [if_neg (by rw [hfacts.1]; simp), if_neg (by rw [hfacts.2]; simp), if_pos h2]

/-! ## Claims -/

/-- Claim C1: the spec asserts that `ensure` called twice for one
`(user, habit, day, slot)` key leaves exactly one Checkin row and reports
`created = false` the second time, enforced by a uniqueness constraint.
`init_db` creates `idx_checkins_uniq` with `CREATE INDEX` (not
`CREATE UNIQUE INDEX`), so the second `INSERT` in `ensure_checkin` also
succeeds: evaluating the code at one key twice yields two rows for the key
and `True` from both calls.  The `try/except` in `ensure_checkin` and the
index's name show the spec is the intent and the code a slip. -/
theorem c1_ensure_duplicate_rows :
    (ensureCheckin ((ensureCheckin ⟨[], 0⟩ 1 1 "2026-10-12" "09:00").1) 1 1 "2026-10-12" "09:00").2
      = true ∧
    (((ensureCheckin ((ensureCheckin ⟨[], 0⟩ 1 1 "2026-10-12" "09:00").1) 1 1 "2026-10-12" "09:00").1).checkins.filter
        (fun c => keyEq c 1 1 "2026-10-12" "09:00")).length = 2 := by
  decide

/-- Claim C5, counterexample: a storage failure during `ensure` does not
propagate — `ensure_checkin` catches every `Exception` and returns `False`,
so the caller sees a normal `created = false` result instead of an error. -/
theorem c5_counterexample_ensure_swallows :
    ensureCheckinE true ⟨[], 0⟩ 1 1 "2026-10-12" "09:00" = Except.ok (⟨[], 0⟩, false) := rfl

/-- Claim C5, amended: storage failures during `markDone`
(`set_checkin_done`) and `markMiss` (`set_checkin_miss`) propagate to the
caller as errors, but a failure during `ensure` is swallowed by its
catch-all handler and reported as `created = false`. -/
theorem c5_amended_propagation (db : DB) (cid uid hid : Nat) (day slot : String)
    (r : List Char) :
    setCheckinDoneE true db cid = Except.error () ∧
    setCheckinMissE true db cid r = Except.error () ∧
    ensureCheckinE true db uid hid day slot = Except.ok (db, false) :=
  ⟨rfl, rfl, rfl⟩

/-- Claim C9: starting a check-in session with an empty habit list is a
complete no-op — the state (ledger, sessions, reason waits) is unchanged
and no event (ledger insert or message) is emitted. -/
theorem c9_empty_queue_noop (st : BotState) (uid : Nat) (slot day : String) :
    startCheckinSession st uid [] slot day = (st, []) := rfl

/-- Claim C2, counterexample: after user 1's active session receives the
negative answer `нет` without a reason, the code keeps the session in
`SESSIONS` and additionally records the wait in `WAIT_REASON`, so both the
Session and the Awaiting-Reason marker are set at once, refuting
"at most one of {Session, AwaitingReason} is set at any time". -/
theorem c2_counterexample_both_set :
    ((handleSessionAnswer wSt1 1 "нет".toList).1.sessions 1).isSome = true ∧
    ((handleSessionAnswer wSt1 1 "нет".toList).1.waitReason 1).isSome = true := by
  decide

/-- Claim C2, amended: a Session and the Awaiting-Reason marker can be set
simultaneously for a user (a negative answer without a reason pauses the
session and sets the marker while the session entry remains); a second
session-start request while either is active is rejected with a busy
notice and mutates nothing. -/
theorem c2_amended_second_start_rejected (st : BotState) (uid : Nat)
    (habits : List (Nat × String)) (day : String)
    (hbusy : (st.sessions uid).isSome = true ∨ (st.waitReason uid).isSome = true)
    (hne : habits.isEmpty = false) :
    (startManualCheckin st uid habits day).1 = st ∧
    (startManualCheckin st uid habits day).2 = [.busyMsg uid] := by
  have hb : ((st.sessions uid).isSome || (st.waitReason uid).isSome) = true := by
    rcases hbusy with h | h <;> simp [h]
  unfold startManualCheckin
  simp [hne, hb]

/-- Witness for the amended claim C2 at a concrete busy state. -/
theorem c2_amended_witness :
    (startManualCheckin wSt1 1 [(7, "Вода")] "2026-10-12").1 = wSt1 ∧
    (startManualCheckin wSt1 1 [(7, "Вода")] "2026-10-12").2 = [Ev.busyMsg 1] :=
  c2_amended_second_start_rejected wSt1 1 [(7, "Вода")] "2026-10-12" (Or.inl (by decide))
    (by decide)

/-- Claim C3: during a session in state `Asking(i)` with ledger row `c`
(pending) for the current key: an affirmative answer sets the row's status
to done and clears its reason; a negative answer with an inline reason sets
status to miss with that (post-trim) reason stored verbatim; a negative
answer without a reason leaves the row untouched (still pending) and parks
its id in the Awaiting-Reason marker, and the follow-up text then sets
status to miss with the stripped follow-up text as reason. -/
theorem c3_outcome_correctness (st : BotState) (uid : Nat) (sess : Session) (hid : Nat)
    (title : String) (cid : Nat) (c : Checkin) (tY tN tR tF r : List Char)
    (hw : st.waitReason uid = none)
    (hs : st.sessions uid = some sess)
    (hq : sess.queue[sess.idx]? = some (hid, title))
    (hc : getCheckinId st.db uid hid sess.day sess.timeSlot = some cid)
    (hrow : findCheckin st.db cid = some c)
    (hpend : c.status = .pending)
    (hpY : parseYesNo tY = some (.yes, none))
    (hpN : parseYesNo tN = some (.no, some r))
    (hpR : parseYesNo tR = some (.no, none)) :
    findCheckin (handleSessionAnswer st uid tY).1.db cid
      = some { c with status := .done, reason := none } ∧
    findCheckin (handleSessionAnswer st uid tN).1.db cid
      = some { c with status := .miss, reason := some r } ∧
    findCheckin (handleSessionAnswer st uid tR).1.db cid = some c ∧
    c.status = .pending ∧
    (handleSessionAnswer st uid tR).1.waitReason uid = some cid ∧
    findCheckin (handleSessionAnswer (handleSessionAnswer st uid tR).1 uid tF).1.db cid
      = some { c with status := .miss, reason := some (stripWs tF) } := by
  have hY := handle_asking_yes st uid sess hid title cid tY hw hs hpY hq hc
  have hN := handle_asking_no_inline st uid sess hid title cid tN r hw hs hpN hq hc
  have hR := handle_asking_no_wait st uid sess hid title cid tR hw hs hpR hq hc
  have hRw : (handleSessionAnswer st uid tR).1.waitReason uid = some cid := by
    rw [hR.2]; simp [upd]
  refine ⟨?_, ?_, ?_, hpend, hRw, ?_⟩
  · rw [hY.1]
    exact findCheckin_setDone st.db cid c hrow
  · rw [hN.1]
    exact findCheckin_setMiss st.db cid c r hrow
  · rw [hR.1]
    exact hrow
  · rw [handle_wait_db ((handleSessionAnswer st uid tR).1) uid tF cid hRw, hR.1]
    exact findCheckin_setMiss st.db cid c (stripWs tF) hrow

/-- Witness for claim C3 at the concrete one-habit session of `wSt1`. -/
theorem c3_witness :
    findCheckin (handleSessionAnswer wSt1 1 "да".toList).1.db 0
      = some { wRow with status := .done, reason := none } ∧
    findCheckin (handleSessionAnswer wSt1 1 "нет, устал".toList).1.db 0
      = some { wRow with status := .miss, reason := some "устал".toList } ∧
    findCheckin (handleSessionAnswer wSt1 1 "нет".toList).1.db 0 = some wRow ∧
    wRow.status = .pending ∧
    (handleSessionAnswer wSt1 1 "нет".toList).1.waitReason 1 = some 0 ∧
    findCheckin (handleSessionAnswer (handleSessionAnswer wSt1 1 "нет".toList).1 1 " забыл ".toList).1.db 0
      = some { wRow with status := .miss, reason := some (stripWs " забыл ".toList) } :=
  c3_outcome_correctness wSt1 1 wSess 7 "Вода" 0 wRow
    "да".toList "нет, устал".toList "нет".toList " забыл ".toList "устал".toList
    (by decide) (by decide) (by decide) (by decide) (by decide) (by decide)
    (by decide) (by decide) (by decide)

/-- Claim C10: if no ledger row exists for the current key while a yes/no
answer is processed in state `Asking(i)`, the handler re-creates a pending
row via `ensure` (with the next rowid) and looks it up again before
applying the outcome, so the answer is not dropped: an affirmative answer
leaves the re-created row done, an inline-reason negative leaves it miss
with that reason, and a reasonless negative leaves it pending with its id
parked in the Awaiting-Reason marker. -/
theorem c10_reensure_missing_row (st : BotState) (uid : Nat) (sess : Session) (hid : Nat)
    (title : String) (tY tN tR r : List Char)
    (hfresh : ∀ ch ∈ st.db.checkins, ch.id < st.db.nextId)
    (hw : st.waitReason uid = none)
    (hs : st.sessions uid = some sess)
    (hq : sess.queue[sess.idx]? = some (hid, title))
    (hc : getCheckinId st.db uid hid sess.day sess.timeSlot = none)
    (hpY : parseYesNo tY = some (.yes, none))
    (hpN : parseYesNo tN = some (.no, some r))
    (hpR : parseYesNo tR = some (.no, none)) :
    getCheckinId (handleSessionAnswer st uid tY).1.db uid hid sess.day sess.timeSlot
      = some st.db.nextId ∧
    findCheckin (handleSessionAnswer st uid tY).1.db st.db.nextId
      = some ⟨st.db.nextId, uid, hid, sess.day, sess.timeSlot, .done, none⟩ ∧
    findCheckin (handleSessionAnswer st uid tN).1.db st.db.nextId
      = some ⟨st.db.nextId, uid, hid, sess.day, sess.timeSlot, .miss, some r⟩ ∧
    findCheckin (handleSessionAnswer st uid tR).1.db st.db.nextId
      = some ⟨st.db.nextId, uid, hid, sess.day, sess.timeSlot, .pending, none⟩ ∧
    (handleSessionAnswer st uid tR).1.waitReason uid = some st.db.nextId := by
  have hnew := findCheckin_ensure_fresh st.db uid hid sess.day sess.timeSlot hfresh
  have hY := handle_asking_yes_missing st uid sess hid title tY hw hs hpY hq hc
  have hN := handle_asking_no_inline_missing st uid sess hid title tN r hw hs hpN hq hc
  have hR := handle_asking_no_wait_missing st uid sess hid title tR hw hs hpR hq hc
  refine ⟨?_, ?_, ?_, ?_, ?_⟩
  · rw [hY, getCheckinId_setDone]
    exact getCheckinId_ensure_of_none st.db uid hid sess.day sess.timeSlot hc
  · rw [hY]
    exact findCheckin_setDone _ st.db.nextId _ hnew
  · rw [hN]
    exact findCheckin_setMiss _ st.db.nextId _ r hnew
  · rw [hR.1]
    exact hnew
  · rw [hR.2]
    simp [upd]

/-- Witness for claim C10 at a session whose ledger row is missing. -/
theorem c10_witness :
    getCheckinId (handleSessionAnswer wStM 1 "да".toList).1.db 1 7 "2026-10-12" "09:00"
      = some 0 ∧
    findCheckin (handleSessionAnswer wStM 1 "да".toList).1.db 0
      = some ⟨0, 1, 7, "2026-10-12", "09:00", .done, none⟩ ∧
    findCheckin (handleSessionAnswer wStM 1 "нет, устал".toList).1.db 0
      = some ⟨0, 1, 7, "2026-10-12", "09:00", .miss, some "устал".toList⟩ ∧
    findCheckin (handleSessionAnswer wStM 1 "нет".toList).1.db 0
      = some ⟨0, 1, 7, "2026-10-12", "09:00", .pending, none⟩ ∧
    (handleSessionAnswer wStM 1 "нет".toList).1.waitReason 1 = some 0 :=
  c10_reensure_missing_row wStM 1 wSess 7 "Вода"
    "да".toList "нет, устал".toList "нет".toList "устал".toList
    (by intro ch hch; cases hch) (by decide) (by decide) (by decide) (by decide)
    (by decide) (by decide) (by decide)

/-- Claim C4: on a trigger tick, a user who already has an active Session
or an Awaiting-Reason marker is skipped entirely: their session entry and
marker are untouched and no ledger rows are created for them (their slice
of the checkins table is unchanged).  In particular a second firing within
the same matching minute, while the first firing's session is still
active, creates neither a second Session nor duplicate ledger rows. -/
theorem c4_busy_user_skipped (st : BotState) (rows : List (Nat × Nat × String))
    (day slot : String) (uid : Nat)
    (hbusy : (st.sessions uid).isSome = true ∨ (st.waitReason uid).isSome = true) :
    (schedulerTick st rows day slot).1.sessions uid = st.sessions uid ∧
    (schedulerTick st rows day slot).1.waitReason uid = st.waitReason uid ∧
    (schedulerTick st rows day slot).1.db.checkins.filter (fun c => c.userId == uid)
      = st.db.checkins.filter (fun c => c.userId == uid) := by
  unfold schedulerTick
  exact tick_fold_skip day slot uid st (groupRows rows) (st, []) hbusy rfl rfl rfl

/-- Witness for claim C4: the tick fires again in the same minute while
user 1's session from the first firing is still active. -/
theorem c4_witness :
    (schedulerTick wSt1 [(1, 7, "Вода")] "2026-10-12" "09:00").1.sessions 1
      = wSt1.sessions 1 ∧
    (schedulerTick wSt1 [(1, 7, "Вода")] "2026-10-12" "09:00").1.waitReason 1
      = wSt1.waitReason 1 ∧
    (schedulerTick wSt1 [(1, 7, "Вода")] "2026-10-12" "09:00").1.db.checkins.filter
        (fun c => c.userId == 1)
      = wSt1.db.checkins.filter (fun c => c.userId == 1) :=
  c4_busy_user_skipped wSt1 [(1, 7, "Вода")] "2026-10-12" "09:00" 1 (Or.inl (by decide))

/-- Claim C6: when a session starts for a `(day, slot)` with a non-empty
queue, the emitted trace is the `ensure` insert for every habit of the
queue followed by the single first prompt — so every `ensure` happens
before any prompt; and the grouping the trigger builds from the SQL rows
(delivered sorted by `ORDER BY user_id, habit_id`) lists each user's due
habits in ascending habit-id order. -/
theorem c6_ensure_before_prompt_and_ascending :
    (∀ (st : BotState) (uid : Nat) (h : Nat × String) (rest : List (Nat × String))
        (slot day : String),
      (startCheckinSession st uid (h :: rest) slot day).2
        = ((h :: rest).map (fun x => Ev.ensureEv uid x.1 day slot))
            ++ [Ev.promptEv uid h.2]) ∧
    (∀ rows : List (Nat × Nat × String), rows.Pairwise rowLe →
      ∀ (u : Nat) (us : List (Nat × String)), (u, us) ∈ groupRows rows →
        us.Pairwise (fun a b => a.1 ≤ b.1)) := by
  constructor
  · exact start_trace
  · intro rows hrows u us hm
    exact groupRows_sorted_aux rows [] hrows (fun u us hm2 => by cases hm2) u us hm

/-- Witness for claim C6: a two-habit start emits both ensures before the
prompt, and a two-row tick query groups user 1's habits ascending. -/
theorem c6_witness :
    (startCheckinSession wSt0 1 [(7, "Вода"), (9, "Чтение")] "09:00" "2026-10-12").2
      = [Ev.ensureEv 1 7 "2026-10-12" "09:00", Ev.ensureEv 1 9 "2026-10-12" "09:00",
         Ev.promptEv 1 "Вода"] ∧
    ([(7, "Вода"), (9, "Чтение")] : List (Nat × String)).Pairwise (fun a b => a.1 ≤ b.1) :=
  ⟨c6_ensure_before_prompt_and_ascending.1 wSt0 1 (7, "Вода") [(9, "Чтение")]
      "09:00" "2026-10-12",
   c6_ensure_before_prompt_and_ascending.2 [(1, 7, "Вода"), (1, 9, "Чтение")]
      (by constructor
          · intro b hb
            rw [List.mem_singleton.mp hb]
            exact Or.inr ⟨rfl, by decide⟩
          · exact List.pairwise_singleton _ _)
      1 [(7, "Вода"), (9, "Чтение")] (by decide)⟩

/-- Claim C7: for every input the classifier recognizes as negative, the
reported reason equals the spec's extraction rule applied to the
normalized text: after the causal connective (`потому`) with the filler
word (`что`) stripped and surrounding punctuation trimmed, else after the
first comma (trimmed), else no reason; an empty extraction counts as no
reason. -/
theorem c7_reason_extraction (text : List Char) (r : Option (List Char))
    (h : parseYesNo text = some (.no, r)) : r = reasonSpec (normL text) :=
  classify_no_reason (normL text) r h

/-- Witness for claim C7 on a negative answer with a causal reason. -/
theorem c7_witness :
    parseYesNo "нет потому что устал".toList = some (.no, some "устал".toList) ∧
    some "устал".toList = reasonSpec (normL "нет потому что устал".toList) :=
  ⟨by decide,
   c7_reason_extraction "нет потому что устал".toList (some "устал".toList) (by decide)⟩

/-- Claim C8, counterexample: `да!` starts with the local word for yes
followed by a word boundary (the non-word character `!`), so the claim
calls it affirmative, but the code only accepts the exact vocabulary or
the prefix `да` + space and returns unrecognized. -/
theorem c8_counterexample_word_boundary :
    claimAffirm "да!".toList = true ∧ parseYesNo "да!".toList = none := by
  decide

/-- Claim C8, amended: the classifier returns affirmative exactly for
inputs that, after trimming and lowercasing, are an exact match against
the fixed yes-vocabulary or start with the local word for yes followed by
a space (not an arbitrary word boundary). -/
theorem c8_amended_affirmative_iff (text : List Char) :
    parseYesNo text = some (.yes, none)
      ↔ (inVocab (normL text) YES_WORDS || begWith "да ".toList (normL text)) = true :=
  classify_yes_iff (normL text)

/-- Witness for the amended claim C8: a yes-prefixed sentence is
affirmative. -/
theorem c8_amended_witness :
    parseYesNo "Да мы сделали".toList = some (.yes, none) :=
  (c8_amended_affirmative_iff "Да мы сделали".toList).mpr (by decide)

end HabitBot
